import Mathlib

/-!
Verification of the transfer-learning notebook `src/transfer_learning.ipynb`.

The notebook is a linear script of calls into the Keras framework:
instantiate an InceptionV3 base network, load pretrained weights, freeze
every base layer, cut the graph at the layer named "mixed7", attach a
classifier head (flatten, dense 1024 relu, dropout 0.2, dense 1 sigmoid),
compile with RMSprop(learning_rate = 0.0001) / binary cross-entropy /
accuracy, and fit with steps_per_epoch = 100, epochs = 20,
validation_steps = 50 over cycling data streams.

The notebook's own orchestration (the freeze loop, the constants, the
order of the calls) is embedded directly from the source cells.  The
framework operations the notebook invokes (layer lookup, weight loading,
the fit loop, layer forward semantics) are not part of the repository;
they are modelled from the specification's contracts for them, each such
definition carrying a doc comment starting `Modelled from the spec:`.
-/

set_option autoImplicit false

namespace TransferLearning

/-- A parameter set of one layer, abstracted as a flat list of values. -/
abbrev Params := List Int

/-- A node of the layer graph: a name, its parameter set and its
`trainable` flag.  This is the data model of §3 of the specification
(directed layer graph with named nodes, parameter set and trainable flag
per node); the notebook accesses exactly these attributes
(`layer.trainable`, `get_layer(name)`, `layer.output`). -/
structure Layer where
  name : String
  params : Params
  trainable : Bool
deriving DecidableEq

/-- The base network: a fixed input shape plus the layer graph in
topological order (`pre_trained_model` in the notebook). -/
structure BaseNetwork where
  inputShape : Nat × Nat × Nat
  layers : List Layer
deriving DecidableEq

/-- The input resolution hardcoded in the notebook:
`InceptionV3(input_shape=(150, 150, 3), ...)`. -/
def INPUT_SHAPE : Nat × Nat × Nat := (150, 150, 3)

/-- The cut-point layer name hardcoded in the notebook:
`pre_trained_model.get_layer('mixed7')`. -/
def CUT_NAME : String := "mixed7"

/-- Embedding of the notebook's freeze loop
`for layer in pre_trained_model.layers: layer.trainable = False`:
every layer of the whole base network gets `trainable := false`. -/
def freezeAll (layers : List Layer) : List Layer :=
  layers.map (fun l => { l with trainable := false })

/-- Modelled from the spec: the framework's lookup of a node by name
(`get_layer`).  Returns the named node when it exists and fails with a
lookup error if the named node does not exist in the graph (§4.2,
§7 (b)). -/
def get_layer (layers : List Layer) (name : String) : Except String Layer :=
  match layers.find? (fun l => l.name = name) with
  | some l => .ok l
  | none => .error ("lookup error: no such layer " ++ name)

/-- A parameter archive: an externally produced file keyed by layer
name, mapping each name to parameter values (§6). -/
abbrev Archive := List (String × Params)

/-- Modelled from the spec: the framework's `load_weights`.  Loads
matching parameters by name/shape into the graph; fails with a load
error if the archive's parameter shapes do not match the instantiated
graph; otherwise parameters are mutated in place to the loaded values
(§4.1). -/
def load_weights : List Layer → Archive → Except String (List Layer)
  | [], _ => .ok []
  | l :: ls, archive =>
      match archive.lookup l.name with
      | none => .error ("load error: no weights for layer " ++ l.name)
      | some ps =>
          if ps.length = l.params.length then
            match load_weights ls archive with
            | .error e => .error e
            | .ok ls' => .ok ({ l with params := ps } :: ls')
          else
            .error ("load error: shape mismatch at layer " ++ l.name)

/-- The archive matches the instantiated graph: every layer finds an
entry of its own name whose shape agrees. -/
def archiveMatches (layers : List Layer) (archive : Archive) : Prop :=
  ∀ l ∈ layers, ∃ ps, archive.lookup l.name = some ps ∧
    ps.length = l.params.length

/-- Activation tags appearing in the notebook's head:
`activation='relu'` and `activation='sigmoid'`. -/
inductive Activation where
  | relu
  | sigmoid
deriving DecidableEq

/-- One architectural element of the classifier head stack. -/
inductive HeadOp where
  | flatten
  | dense (units : Nat) (activation : Activation)
  | dropout (rate : Rat)
deriving DecidableEq

/-- Embedding of the notebook's head construction (cell 10), in source
order:
`x = layers.Flatten()(last_output)`;
`x = layers.Dense(1024, activation='relu')(x)`;
`x = layers.Dropout(0.2)(x)`;
`x = layers.Dense(1, activation='sigmoid')(x)`. -/
def classifierHeadArch : List HeadOp :=
  [HeadOp.flatten,
   HeadOp.dense 1024 Activation.relu,
   HeadOp.dropout (2 / 10),
   HeadOp.dense 1 Activation.sigmoid]

/-- Modelled from the spec: a layer freshly constructed by the framework
carries `trainable = true` (the head layers are "the layers that you
will train"; §8: for all parameter sets in the classifier head,
`trainable == true` immediately after composition). -/
def newLayer (name : String) (ps : Params) : Layer :=
  { name := name, params := ps, trainable := true }

/-- The classifier head as parameter-carrying layers: the two dense
layers own parameters (`w1, b1` and `w2, b2`); flatten and dropout own
none.  All four are freshly constructed, hence trainable. -/
def headLayers (w1 b1 w2 b2 : Params) : List Layer :=
  [newLayer "flatten" [],
   newLayer "dense_1024_relu" (w1 ++ b1),
   newLayer "dropout_0.2" [],
   newLayer "dense_1_sigmoid" (w2 ++ b2)]

/-- The optimizer configurations the notebook can mention.  The
notebook uses `RMSprop(learning_rate=0.0001)`. -/
inductive Optimizer where
  | rmsprop (learningRate : Rat)
deriving DecidableEq

/-- The composed end-to-end model: the retained (frozen) base sub-graph
chained with the classifier head, its public interface (the original
network's input tensor paired with the head's output tensor), the head
architecture, and the optimization contract bound by `compile`. -/
structure ComposedModel where
  baseLayers : List Layer
  headLayers : List Layer
  arch : List HeadOp
  inputShape : Nat × Nat × Nat
  outputLayerName : String
  optimizer : Option Optimizer
  loss : Option String
  metrics : List String
deriving DecidableEq

/-- All layers of the composed model, base part first. -/
def ComposedModel.allLayers (m : ComposedModel) : List Layer :=
  m.baseLayers ++ m.headLayers

/-- Embedding of `Model(pre_trained_model.input, x)` (cell 10): chain
the retained base sub-graph with the head; the interface pairs the
original network's input with the head's final output; no optimization
contract is bound yet. -/
def composeModel (base : BaseNetwork) (retained : List Layer)
    (head : List Layer) : ComposedModel :=
  { baseLayers := retained
    headLayers := head
    arch := classifierHeadArch
    inputShape := base.inputShape
    outputLayerName := "dense_1_sigmoid"
    optimizer := none
    loss := none
    metrics := [] }

/-- Embedding of the notebook's `model.compile(optimizer=
RMSprop(learning_rate=0.0001), loss='binary_crossentropy',
metrics=['accuracy'])` (cell 11): bind the optimization contract,
touching nothing else. -/
def compile (m : ComposedModel) : ComposedModel :=
  { m with
    optimizer := some (Optimizer.rmsprop (1 / 10000))
    loss := some "binary_crossentropy"
    metrics := ["accuracy"] }

/-- The retained sub-graph for a cut at index `i`: the layers up to and
including the cut point. -/
def retainedUpTo (layers : List Layer) (i : Nat) : List Layer :=
  layers.take (i + 1)

/-- Index of the first layer with the given name, if any. -/
def layerIndex (layers : List Layer) (name : String) : Option Nat :=
  layers.findIdx? (fun l => l.name = name)

/-- Embedding of the notebook's setup pipeline (cells 5, 8, 10, 11) with
the cut-point name as the one degree of freedom the last markdown cell
invites the reader to vary.  In source order: freeze every base layer,
look up the cut layer by name (errors propagate: the script catches
nothing), build the head, compose, compile. -/
def setupScript (base : BaseNetwork) (cutName : String)
    (w1 b1 w2 b2 : Params) : Except String ComposedModel :=
  let frozen := freezeAll base.layers
  match get_layer frozen cutName with
  | .error e => .error e
  | .ok _ =>
      let i := (layerIndex frozen cutName).getD 0
      let retained := retainedUpTo frozen i
      .ok (compile (composeModel base retained (headLayers w1 b1 w2 b2)))

/-- The notebook's script proper: cut at `'mixed7'`. -/
def notebookSetup (base : BaseNetwork) (w1 b1 w2 b2 : Params) :
    Except String ComposedModel :=
  setupScript base CUT_NAME w1 b1 w2 b2

/-- A feature map as produced at the cut point: a list of positions,
each carrying a channel vector (all non-batch dimensions, per sample). -/
abbrev FeatureMap := List (List Rat)

/-- Modelled from the spec: the flattening transform collapses all
non-batch dimensions into one (§4.3 (a)). -/
def flattenT (f : FeatureMap) : List Rat :=
  f.flatten

/-- Dot product of two rational vectors. -/
def dotQ (r v : List Rat) : Rat :=
  ((r.zip v).map (fun p => p.1 * p.2)).sum

/-- Modelled from the spec: the affine part of a fully connected
transform, one output per weight row (§4.3 (b), (d)). -/
def denseAffine (w : List (List Rat)) (b : List Rat) (v : List Rat) : List Rat :=
  (w.zip b).map (fun rb => dotQ rb.1 v + rb.2)

/-- Pointwise activation semantics.  The rectifier is concrete; the
bounded sigmoid is kept abstract (`sig`), since its real-valued formula
is owned by the external framework. -/
def applyAct (sig : Rat → Rat) : Activation → Rat → Rat
  | Activation.relu, x => max x 0
  | Activation.sigmoid, x => sig x

/-- Modelled from the spec: the stochastic regularizer.  Only during
training it independently zeroes each activation (per the random keep
decision `keep`) and rescales survivors by `1 / (1 - rate)` to preserve
expected magnitude; at inference it is the identity (§4.3 (c)). -/
def dropoutT (rate : Rat) (training : Bool) (keep : Nat → Bool)
    (v : List Rat) : List Rat :=
  if training then
    v.enum.map (fun ix => if keep ix.1 then ix.2 / (1 - rate) else 0)
  else
    v

/-- The dense-layer weights of the classifier head (rational view used
by the forward semantics). -/
structure HeadWeights where
  w1 : List (List Rat)
  b1 : List Rat
  w2 : List (List Rat)
  b2 : List Rat

/-- Forward pass of the classifier head, applying the notebook's four
operations in source order: flatten, dense(1024, relu), dropout(0.2),
dense(1, sigmoid).  `training` selects the regularizer's mode and
`keep` is the stream of random keep decisions it draws from. -/
def headForward (sig : Rat → Rat) (hw : HeadWeights) (training : Bool)
    (keep : Nat → Bool) (f : FeatureMap) : List Rat :=
  let x0 := flattenT f
  let x1 := (denseAffine hw.w1 hw.b1 x0).map (applyAct sig Activation.relu)
  let x2 := dropoutT (2 / 10) training keep x1
  (denseAffine hw.w2 hw.b2 x2).map (applyAct sig Activation.sigmoid)

/-- Forward pass of the composed model: the frozen convolutional base
(a deterministic feature extractor `baseF`, its internals out of scope)
followed by the classifier head.  The dropout regularizer is the only
stochastic element of the composed graph. -/
def composedForward (baseF : List Rat → FeatureMap) (sig : Rat → Rat)
    (hw : HeadWeights) (training : Bool) (keep : Nat → Bool)
    (x : List Rat) : List Rat :=
  headForward sig hw training keep (baseF x)

/-- A mini-batch drawn from a data stream, abstracted by an identifier
(its pixel content plays no role in the claims about the driver). -/
abbrev Batch := Nat

/-- Modelled from the spec: a data stream is an ordered, cyclically
restartable sequence of batches; it can be iterated indefinitely by
cycling the underlying sample set (§3). -/
structure CycStream where
  data : List Batch
  pos : Nat
deriving DecidableEq

/-- Modelled from the spec: draw the next batch, wrapping around the
underlying sample set; a stream that is exhausted and cannot be cycled
(it has no samples at all) yields nothing, which aborts the run with a
data-starvation error (§4.4, §7 (c)). -/
def CycStream.next (s : CycStream) : Option (Batch × CycStream) :=
  if s.data.isEmpty then none
  else some (s.data.getD (s.pos % s.data.length) 0,
             { s with pos := s.pos + 1 })

/-- What one optimizer update does to one trainable parameter set given
a batch.  The gradient/update rule itself belongs to the external
automatic-differentiation engine, so the driver is stated for every
such rule. -/
abbrev UpdateRule := Params → Batch → Params

/-- Modelled from the spec: one training-batch gradient step.  The loss
gradient is taken with respect to all trainable parameters and one
optimizer update is applied to them; frozen parameters receive no
gradient and are never updated (§4.4). -/
def trainStep (upd : UpdateRule) (net : List Layer) (b : Batch) : List Layer :=
  net.map (fun l => if l.trainable then { l with params := upd l.params b } else l)

/-- The running state of the training driver: the composed model's
layers, both streams, and counters of optimizer updates performed and
validation-batch evaluations performed. -/
structure RunState where
  net : List Layer
  trainS : CycStream
  valS : CycStream
  updates : Nat
  evals : Nat
deriving DecidableEq

/-- Modelled from the spec: draw `n` batches from the training stream,
applying one optimizer update per batch (§4.4). -/
def doTrainSteps (upd : UpdateRule) : Nat → RunState → Except String RunState
  | 0, st => .ok st
  | n + 1, st =>
      match st.trainS.next with
      | none => .error "data starvation: training stream cannot be cycled"
      | some (b, s) =>
          doTrainSteps upd n
            { st with
              net := trainStep upd st.net b
              trainS := s
              updates := st.updates + 1 }

/-- Modelled from the spec: draw `n` batches from the validation stream
and compute loss/accuracy without updating any parameter (§4.4). -/
def doValSteps : Nat → RunState → Except String RunState
  | 0, st => .ok st
  | n + 1, st =>
      match st.valS.next with
      | none => .error "data starvation: validation stream cannot be cycled"
      | some (_, s) =>
          doValSteps n { st with valS := s, evals := st.evals + 1 }

/-- Modelled from the spec: repeat for `epochs` iterations the epoch
body: `stepsPerEpoch` training steps then `valSteps` validation steps
(§4.4). -/
def runEpochs (upd : UpdateRule) (stepsPerEpoch valSteps : Nat) :
    Nat → RunState → Except String RunState
  | 0, st => .ok st
  | e + 1, st =>
      match doTrainSteps upd stepsPerEpoch st with
      | .error m => .error m
      | .ok st1 =>
          match doValSteps valSteps st1 with
          | .error m => .error m
          | .ok st2 => runEpochs upd stepsPerEpoch valSteps e st2

/-- Modelled from the spec: the training driver (`model.fit`).  Starts
with fresh streams and zero counters and runs the configured number of
epochs (§4.4). -/
def fit (upd : UpdateRule) (net : List Layer)
    (trainData valData : List Batch)
    (stepsPerEpoch epochs valSteps : Nat) : Except String RunState :=
  runEpochs upd stepsPerEpoch valSteps epochs
    { net := net
      trainS := { data := trainData, pos := 0 }
      valS := { data := valData, pos := 0 }
      updates := 0
      evals := 0 }

/-- The notebook's training configuration (cell 16):
`steps_per_epoch = 100`. -/
def STEPS_PER_EPOCH : Nat := 100

/-- The notebook's training configuration (cell 16): `epochs = 20`. -/
def EPOCHS : Nat := 20

/-- The notebook's training configuration (cell 16):
`validation_steps = 50`. -/
def VALIDATION_STEPS : Nat := 50

/-- Embedding of the notebook's training call (cell 16):
`model.fit(train_generator, validation_data = validation_generator,
steps_per_epoch = 100, epochs = 20, validation_steps = 50, ...)`. -/
def notebookFit (upd : UpdateRule) (net : List Layer)
    (trainData valData : List Batch) : Except String RunState :=
  fit upd net trainData valData STEPS_PER_EPOCH EPOCHS VALIDATION_STEPS

/-- The frozen portion of a layer list: the parameter-carrying view of
all layers with `trainable = false`, in order. -/
def frozenPart (net : List Layer) : List Layer :=
  net.filter (fun l => !l.trainable)

/-! ### Helper lemmas about the training driver -/

theorem CycStream.next_of_ne_nil (s : CycStream) (h : s.data ≠ []) :
    s.next = some (s.data.getD (s.pos % s.data.length) 0,
      { s with pos := s.pos + 1 }) := by
  have he : s.data.isEmpty = false := by
    cases hd : s.data with
    | nil => exact absurd hd h
    | cons a l => rfl
  simp [CycStream.next, he]

theorem trainStep_frozenPart (upd : UpdateRule) (net : List Layer) (b : Batch) :
    frozenPart (trainStep upd net b) = frozenPart net := by
  induction net with
  | nil => rfl
  | cons l ls ih =>
      simp only [trainStep, List.map_cons, frozenPart, List.filter_cons] at ih ⊢
      cases h : l.trainable <;> simp [h, ih]

theorem trainStep_trainable_map (upd : UpdateRule) (net : List Layer) (b : Batch) :
    (trainStep upd net b).map Layer.trainable = net.map Layer.trainable := by
  induction net with
  | nil => rfl
  | cons l ls ih =>
      simp only [trainStep, List.map_cons] at ih ⊢
      cases h : l.trainable <;> simp [h, ih]

theorem doTrainSteps_spec (upd : UpdateRule) (n : Nat) (st : RunState)
    (h : st.trainS.data ≠ []) :
    ∃ st', doTrainSteps upd n st = .ok st' ∧
      st'.updates = st.updates + n ∧
      st'.evals = st.evals ∧
      st'.valS = st.valS ∧
      st'.trainS.data = st.trainS.data ∧
      frozenPart st'.net = frozenPart st.net ∧
      st'.net.map Layer.trainable = st.net.map Layer.trainable := by
  induction n generalizing st with
  | zero => exact ⟨st, rfl, rfl, rfl, rfl, rfl, rfl, rfl⟩
  | succ n ih =>
      have hnext := CycStream.next_of_ne_nil st.trainS h
      obtain ⟨st', h1, h2, h3, h4, h5, h6, h7⟩ := ih
        { st with
          net := trainStep upd st.net (st.trainS.data.getD
            (st.trainS.pos % st.trainS.data.length) 0)
          trainS := { st.trainS with pos := st.trainS.pos + 1 }
          updates := st.updates + 1 } h
      refine ⟨st', ?_, ?_, h3, h4, h5, ?_, ?_⟩
      · simp only [doTrainSteps, hnext]
        exact h1
      · simpa [Nat.add_assoc, Nat.add_comm 1 n] using h2
      · exact h6.trans (trainStep_frozenPart upd st.net _)
      · exact h7.trans (trainStep_trainable_map upd st.net _)

theorem doValSteps_spec (n : Nat) (st : RunState) (h : st.valS.data ≠ []) :
    ∃ st', doValSteps n st = .ok st' ∧
      st'.net = st.net ∧
      st'.updates = st.updates ∧
      st'.evals = st.evals + n ∧
      st'.trainS = st.trainS ∧
      st'.valS.data = st.valS.data := by
  induction n generalizing st with
  | zero => exact ⟨st, rfl, rfl, rfl, rfl, rfl, rfl⟩
  | succ n ih =>
      have hnext := CycStream.next_of_ne_nil st.valS h
      obtain ⟨st', h1, h2, h3, h4, h5, h6⟩ := ih
        { st with
          valS := { st.valS with pos := st.valS.pos + 1 }
          evals := st.evals + 1 } h
      refine ⟨st', ?_, h2, h3, ?_, h5, h6⟩
      · simp only [doValSteps, hnext]
        exact h1
      · simpa [Nat.add_assoc, Nat.add_comm 1 n] using h4

theorem runEpochs_spec (upd : UpdateRule) (S V e : Nat) (st : RunState)
    (ht : st.trainS.data ≠ []) (hv : st.valS.data ≠ []) :
    ∃ st', runEpochs upd S V e st = .ok st' ∧
      st'.updates = st.updates + S * e ∧
      st'.evals = st.evals + V * e ∧
      st'.trainS.data = st.trainS.data ∧
      st'.valS.data = st.valS.data ∧
      frozenPart st'.net = frozenPart st.net ∧
      st'.net.map Layer.trainable = st.net.map Layer.trainable := by
  induction e generalizing st with
  | zero => exact ⟨st, rfl, rfl, rfl, rfl, rfl, rfl, rfl⟩
  | succ e ih =>
      obtain ⟨st1, g1, g2, g3, g4, g5, g6, g7⟩ := doTrainSteps_spec upd S st ht
      have hv1 : st1.valS.data ≠ [] := by rw [g4]; exact hv
      obtain ⟨st2, k1, k2, k3, k4, k5, k6⟩ := doValSteps_spec V st1 hv1
      have ht2 : st2.trainS.data ≠ [] := by rw [k5, g5]; exact ht
      have hv2 : st2.valS.data ≠ [] := by rw [k6, g4]; exact hv
      obtain ⟨st', m1, m2, m3, m4, m5, m6, m7⟩ := ih st2 ht2 hv2
      refine ⟨st', ?_, ?_, ?_, ?_, ?_, ?_, ?_⟩
      · simp only [runEpochs, g1, k1]
        exact m1
      · rw [m2, k3, g2]; ring
      · rw [m3, k4, g3]; ring
      · rw [m4, k5, g5]
      · rw [m5, k6, g4]
      · rw [m6, k2, g6]
      · rw [m7, k2, g7]

/-! ### Helper lemmas about freezing, lookup, loading and the script -/

theorem freezeAll_trainable (layers : List Layer) :
    ∀ l ∈ freezeAll layers, l.trainable = false := by
  intro l hl
  simp only [freezeAll, List.mem_map] at hl
  obtain ⟨x, _, hx⟩ := hl
  rw [← hx]

theorem get_layer_ok_mem (layers : List Layer) (name : String) (l : Layer)
    (h : get_layer layers name = .ok l) : l ∈ layers ∧ l.name = name := by
  simp only [get_layer] at h
  cases hf : layers.find? (fun x => x.name = name) with
  | none => simp [hf] at h
  | some x =>
      simp only [hf, Except.ok.injEq] at h
      subst h
      exact ⟨List.mem_of_find?_eq_some hf, by simpa using List.find?_some hf⟩

theorem get_layer_error_iff (layers : List Layer) (name : String) :
    (∃ e, get_layer layers name = .error e) ↔ ¬ ∃ l ∈ layers, l.name = name := by
  simp only [get_layer]
  cases hf : layers.find? (fun x => x.name = name) with
  | none =>
      simp only [not_exists]
      constructor
      · intro _ l hl
        have := List.find?_eq_none.mp hf l hl.1
        exact absurd hl.2 (by simpa using this)
      · intro _
        exact ⟨_, rfl⟩
  | some x =>
      constructor
      · rintro ⟨e, he⟩
        cases he
      · intro hall
        exact absurd ⟨x, List.mem_of_find?_eq_some hf,
          by simpa using List.find?_some hf⟩ hall

theorem setupScript_ok_elim (base : BaseNetwork) (cutName : String)
    (w1 b1 w2 b2 : Params) (m : ComposedModel)
    (h : setupScript base cutName w1 b1 w2 b2 = .ok m) :
    m = compile (composeModel base
      (retainedUpTo (freezeAll base.layers)
        ((layerIndex (freezeAll base.layers) cutName).getD 0))
      (headLayers w1 b1 w2 b2)) := by
  simp only [setupScript] at h
  cases hg : get_layer (freezeAll base.layers) cutName with
  | error e => simp [hg] at h
  | ok l =>
      simp only [hg, Except.ok.injEq] at h
      exact h.symm

theorem setupScript_error_prop (base : BaseNetwork) (cutName : String)
    (w1 b1 w2 b2 : Params) (e : String)
    (h : get_layer (freezeAll base.layers) cutName = .error e) :
    setupScript base cutName w1 b1 w2 b2 = .error e := by
  simp [setupScript, h]

theorem doValSteps_net (n : Nat) :
    ∀ st st', doValSteps n st = .ok st' → st'.net = st.net := by
  induction n with
  | zero =>
      intro st st' h
      simp only [doValSteps, Except.ok.injEq] at h
      rw [← h]
  | succ n ih =>
      intro st st' h
      simp only [doValSteps] at h
      cases hn : st.valS.next with
      | none => simp [hn] at h
      | some bs =>
          obtain ⟨b, s⟩ := bs
          simp only [hn] at h
          simpa using ih _ _ h

/-- What a successful load leaves behind, layer by layer: same name,
same flag, parameters replaced by the archive's values of matching
shape. -/
def loadedFrom (archive : Archive) (l l' : Layer) : Prop :=
  l'.name = l.name ∧ l'.trainable = l.trainable ∧
  archive.lookup l.name = some l'.params ∧
  l'.params.length = l.params.length

theorem load_weights_forall2 (archive : Archive) :
    ∀ layers ls', load_weights layers archive = .ok ls' →
      List.Forall₂ (loadedFrom archive) layers ls' := by
  intro layers
  induction layers with
  | nil =>
      intro ls' h
      simp only [load_weights, Except.ok.injEq] at h
      rw [← h]
      exact List.Forall₂.nil
  | cons l ls ih =>
      intro ls' h
      simp only [load_weights] at h
      cases hl : archive.lookup l.name with
      | none => simp [hl] at h
      | some ps =>
          simp only [hl] at h
          by_cases hlen : ps.length = l.params.length
          · rw [if_pos hlen] at h
            cases hr : load_weights ls archive with
            | error e => simp [hr] at h
            | ok ls2 =>
                simp only [hr, Except.ok.injEq] at h
                rw [← h]
                exact List.Forall₂.cons ⟨rfl, rfl, by simpa using hl, hlen⟩ (ih ls2 hr)
          · rw [if_neg hlen] at h
            cases h

theorem load_weights_matches (archive : Archive) :
    ∀ layers ls', load_weights layers archive = .ok ls' →
      archiveMatches layers archive := by
  intro layers
  induction layers with
  | nil =>
      intro ls' _ x hx
      cases hx
  | cons l ls ih =>
      intro ls' h
      simp only [load_weights] at h
      cases hl : archive.lookup l.name with
      | none => simp [hl] at h
      | some ps =>
          simp only [hl] at h
          by_cases hlen : ps.length = l.params.length
          · rw [if_pos hlen] at h
            cases hr : load_weights ls archive with
            | error e => simp [hr] at h
            | ok ls2 =>
                intro x hx
                rcases List.mem_cons.mp hx with hxl | hxm
                · rw [hxl]
                  exact ⟨ps, hl, hlen⟩
                · exact ih ls2 hr x hxm
          · rw [if_neg hlen] at h
            cases h

theorem load_weights_ok_of_matches (archive : Archive) :
    ∀ layers, archiveMatches layers archive →
      ∃ ls', load_weights layers archive = .ok ls' := by
  intro layers
  induction layers with
  | nil => exact fun _ => ⟨[], rfl⟩
  | cons l ls ih =>
      intro h
      obtain ⟨ps, hl, hlen⟩ := h l (List.mem_cons_self l ls)
      obtain ⟨ls', hr⟩ := ih (fun x hx => h x (List.mem_cons_of_mem l hx))
      exact ⟨{ l with params := ps } :: ls',
        by simp only [load_weights, hl, if_pos hlen, hr]⟩

/-! ### The claims -/

/-- Claim C1: for the Training Driver invoked with steps_per_epoch = S,
epochs = E and validation_steps = V, the run performs exactly S * E
training-batch gradient updates and exactly V * E validation-batch
evaluations, for every nonempty underlying dataset (the streams wrap
around); in particular the notebook's call (S = 100, E = 20, V = 50)
performs 100 * 20 updates and 50 * 20 evaluations. -/
theorem fit_counts (upd : UpdateRule) (net : List Layer)
    (trainData valData : List Batch) (S E V : Nat)
    (ht : trainData ≠ []) (hv : valData ≠ []) :
    (∃ st', fit upd net trainData valData S E V = .ok st' ∧
      st'.updates = S * E ∧ st'.evals = V * E) ∧
    (∃ st', notebookFit upd net trainData valData = .ok st' ∧
      st'.updates = 100 * 20 ∧ st'.evals = 50 * 20) := by
  constructor
  · obtain ⟨st', h1, h2, h3, _, _, _, _⟩ := runEpochs_spec upd S V E
      { net := net, trainS := ⟨trainData, 0⟩, valS := ⟨valData, 0⟩,
        updates := 0, evals := 0 } ht hv
    exact ⟨st', h1, by simpa using h2, by simpa using h3⟩
  · obtain ⟨st', h1, h2, h3, _, _, _, _⟩ := runEpochs_spec upd 100 50 20
      { net := net, trainS := ⟨trainData, 0⟩, valS := ⟨valData, 0⟩,
        updates := 0, evals := 0 } ht hv
    exact ⟨st', h1, by simpa using h2, by simpa using h3⟩

/-- Witness for fit_counts: a one-batch training set and a one-batch
validation set, far smaller than the configured step counts, still
yield exactly S * E updates and V * E evaluations. -/
theorem fit_counts_witness :
    (([7] : List Batch) ≠ [] ∧ ([9] : List Batch) ≠ []) ∧
    ((∃ st', fit (fun ps _ => ps.map (· + 1)) [] [7] [9] 3 2 1 = .ok st' ∧
        st'.updates = 3 * 2 ∧ st'.evals = 1 * 2) ∧
     (∃ st', notebookFit (fun ps _ => ps.map (· + 1)) [] [7] [9] = .ok st' ∧
        st'.updates = 100 * 20 ∧ st'.evals = 50 * 20)) :=
  ⟨⟨by decide, by decide⟩,
   fit_counts (fun ps _ => ps.map (· + 1)) [] [7] [9] 3 2 1
     (by decide) (by decide)⟩

/-- Claim C2: throughout a training run, each optimizer step leaves the
frozen part of the network unchanged, a validation pass never changes
any parameter, and after the whole run the frozen layers (names,
parameter values and flags) are identical to what they were before the
run; trainable flags themselves are never altered by training. -/
theorem fit_frozen_invariant (upd : UpdateRule) (net : List Layer)
    (trainData valData : List Batch) (S E V : Nat)
    (ht : trainData ≠ []) (hv : valData ≠ []) :
    (∀ (nx : List Layer) (b : Batch),
      frozenPart (trainStep upd nx b) = frozenPart nx) ∧
    (∀ (n : Nat) (st st' : RunState), doValSteps n st = .ok st' →
      st'.net = st.net) ∧
    (∃ st', fit upd net trainData valData S E V = .ok st' ∧
      frozenPart st'.net = frozenPart net ∧
      st'.net.map Layer.trainable = net.map Layer.trainable) := by
  refine ⟨fun nx b => trainStep_frozenPart upd nx b, doValSteps_net, ?_⟩
  obtain ⟨st', h1, _, _, _, _, h6, h7⟩ := runEpochs_spec upd S V E
    { net := net, trainS := ⟨trainData, 0⟩, valS := ⟨valData, 0⟩,
      updates := 0, evals := 0 } ht hv
  exact ⟨st', h1, h6, h7⟩

/-- Witness for fit_frozen_invariant: running the driver over a network
with one frozen and one trainable layer leaves the frozen layer intact. -/
theorem fit_frozen_invariant_witness :
    (([7] : List Batch) ≠ [] ∧ ([9] : List Batch) ≠ []) ∧
    ((∀ (nx : List Layer) (b : Batch),
        frozenPart (trainStep (fun ps _ => ps.map (· + 1)) nx b) = frozenPart nx) ∧
     (∀ (n : Nat) (st st' : RunState), doValSteps n st = .ok st' →
        st'.net = st.net) ∧
     (∃ st', fit (fun ps _ => ps.map (· + 1))
        [⟨"frozen", [1, 2], false⟩, ⟨"head", [3], true⟩] [7] [9] 3 2 1 = .ok st' ∧
        frozenPart st'.net =
          frozenPart [⟨"frozen", [1, 2], false⟩, ⟨"head", [3], true⟩] ∧
        st'.net.map Layer.trainable =
          ([⟨"frozen", [1, 2], false⟩, ⟨"head", [3], true⟩] : List Layer).map
            Layer.trainable)) :=
  ⟨⟨by decide, by decide⟩,
   fit_frozen_invariant (fun ps _ => ps.map (· + 1))
     [⟨"frozen", [1, 2], false⟩, ⟨"head", [3], true⟩] [7] [9] 3 2 1
     (by decide) (by decide)⟩

/-- A small concrete base network used to instantiate the theorems:
one input node, one convolutional block, the cut layer "mixed7", and a
block strictly downstream of the cut. -/
def demoBase : BaseNetwork :=
  { inputShape := INPUT_SHAPE
    layers := [⟨"input_1", [], true⟩, ⟨"conv1", [10, 20], true⟩,
               ⟨"mixed7", [30], true⟩, ⟨"mixed8", [40], true⟩] }

/-- The composed model the script produces on demoBase with empty head
parameters. -/
def demoComposed : ComposedModel :=
  { baseLayers := [⟨"input_1", [], false⟩, ⟨"conv1", [10, 20], false⟩,
                   ⟨"mixed7", [30], false⟩]
    headLayers := [⟨"flatten", [], true⟩, ⟨"dense_1024_relu", [], true⟩,
                   ⟨"dropout_0.2", [], true⟩, ⟨"dense_1_sigmoid", [], true⟩]
    arch := classifierHeadArch
    inputShape := INPUT_SHAPE
    outputLayerName := "dense_1_sigmoid"
    optimizer := some (Optimizer.rmsprop (1 / 10000))
    loss := some "binary_crossentropy"
    metrics := ["accuracy"] }

/-- Claim C3: whenever the script's freeze-and-cut pipeline succeeds for
a cut-point name (which by C7 happens exactly for the names valid in the
base graph), every parameter set upstream of the chosen cut point — the
whole retained base sub-graph of the composed model — has
trainable = false. -/
theorem script_base_frozen (base : BaseNetwork) (cutName : String)
    (w1 b1 w2 b2 : Params) (m : ComposedModel)
    (h : setupScript base cutName w1 b1 w2 b2 = .ok m) :
    ∀ l ∈ m.baseLayers, l.trainable = false := by
  intro l hl
  rw [setupScript_ok_elim base cutName w1 b1 w2 b2 m h] at hl
  simp only [compile, composeModel, retainedUpTo] at hl
  exact freezeAll_trainable base.layers l (List.mem_of_mem_take hl)

/-- Witness for script_base_frozen: the script run on demoBase with cut
point "mixed7" yields demoComposed, whose base layers are all frozen. -/
theorem script_base_frozen_witness :
    setupScript demoBase "mixed7" [] [] [] [] = .ok demoComposed ∧
    ∀ l ∈ demoComposed.baseLayers, l.trainable = false :=
  ⟨by rfl, script_base_frozen demoBase "mixed7" [] [] [] [] demoComposed (by rfl)⟩

/-- Claim C4: immediately after composition, every parameter set
belonging to the classifier head (the flatten / dense / dropout / dense
stack) has trainable = true. -/
theorem compose_head_trainable (base : BaseNetwork) (retained : List Layer)
    (w1 b1 w2 b2 : Params) :
    ∀ l ∈ (composeModel base retained (headLayers w1 b1 w2 b2)).headLayers,
      l.trainable = true := by
  intro l hl
  simp only [composeModel, headLayers, newLayer, List.mem_cons,
    List.not_mem_nil, or_false] at hl
  rcases hl with h | h | h | h <;> rw [h]

/-- Witness for compose_head_trainable: the flatten layer of the head
composed on demoBase is trainable. -/
theorem compose_head_trainable_witness :
    (⟨"flatten", [], true⟩ : Layer) ∈
      (composeModel demoBase [] (headLayers [] [] [] [])).headLayers ∧
    (⟨"flatten", [], true⟩ : Layer).trainable = true :=
  ⟨by decide, compose_head_trainable demoBase [] [] [] [] []
    ⟨"flatten", [], true⟩ (by decide)⟩

/-- Claim C10: the freeze loop sets trainable = false on every layer of
the entire base network, and for any successful cut the retained
sub-graph plus a discarded remainder make up exactly the frozen base
network, the remainder (the layers strictly downstream of the cut
point) being frozen as well — so the frozen set never depends on which
cut-point name is later chosen. -/
theorem freeze_covers_entire_base (base : BaseNetwork) :
    (∀ l ∈ freezeAll base.layers, l.trainable = false) ∧
    (∀ (cutName : String) (w1 b1 w2 b2 : Params) (m : ComposedModel),
      setupScript base cutName w1 b1 w2 b2 = .ok m →
      ∃ rest, m.baseLayers ++ rest = freezeAll base.layers ∧
        ∀ l ∈ rest, l.trainable = false) := by
  refine ⟨freezeAll_trainable base.layers, ?_⟩
  intro cutName w1 b1 w2 b2 m h
  rw [setupScript_ok_elim base cutName w1 b1 w2 b2 m h]
  refine ⟨(freezeAll base.layers).drop
    ((layerIndex (freezeAll base.layers) cutName).getD 0 + 1), ?_, ?_⟩
  · simp only [compile, composeModel, retainedUpTo]
    exact List.take_append_drop _ _
  · intro l hl
    exact freezeAll_trainable base.layers l (List.mem_of_mem_drop hl)

/-- Witness for freeze_covers_entire_base: on demoBase with cut
"mixed7", the discarded remainder is the frozen "mixed8" block. -/
theorem freeze_covers_entire_base_witness :
    setupScript demoBase "mixed7" [] [] [] [] = .ok demoComposed ∧
    (∀ l ∈ freezeAll demoBase.layers, l.trainable = false) ∧
    (∃ rest, demoComposed.baseLayers ++ rest = freezeAll demoBase.layers ∧
      ∀ l ∈ rest, l.trainable = false) :=
  ⟨by rfl, (freeze_covers_entire_base demoBase).1,
   (freeze_covers_entire_base demoBase).2 "mixed7" [] [] [] [] demoComposed
     (by rfl)⟩

/-- Claim C5: the Classifier Head Builder applies, in exactly this
order, (a) a flattening transform collapsing all non-batch dimensions
into one, (b) a dense transform to hidden width 1024 with relu,
(c) a dropout regularizer with probability 0.2 acting only during
training, (d) a dense transform to a single sigmoid output unit; and
the composed model's interface pairs the head's final output with the
original network's input. -/
theorem head_structure (base : BaseNetwork) (retained : List Layer)
    (w1 b1 w2 b2 : Params) (sig : Rat → Rat) (hw : HeadWeights)
    (keep : Nat → Bool) (f : FeatureMap) :
    (composeModel base retained (headLayers w1 b1 w2 b2)).arch =
      [HeadOp.flatten, HeadOp.dense 1024 Activation.relu,
       HeadOp.dropout (2 / 10), HeadOp.dense 1 Activation.sigmoid] ∧
    (composeModel base retained (headLayers w1 b1 w2 b2)).inputShape =
      base.inputShape ∧
    (composeModel base retained (headLayers w1 b1 w2 b2)).outputLayerName =
      "dense_1_sigmoid" ∧
    (flattenT f).length = (f.map List.length).sum ∧
    headForward sig hw true keep f =
      (denseAffine hw.w2 hw.b2 (dropoutT (2 / 10) true keep
        ((denseAffine hw.w1 hw.b1 (flattenT f)).map
          (applyAct sig Activation.relu)))).map
        (applyAct sig Activation.sigmoid) ∧
    headForward sig hw false keep f =
      (denseAffine hw.w2 hw.b2
        ((denseAffine hw.w1 hw.b1 (flattenT f)).map
          (applyAct sig Activation.relu))).map
        (applyAct sig Activation.sigmoid) :=
  ⟨rfl, rfl, rfl, List.length_flatten f, rfl, rfl⟩

/-- Claim C6: compiling binds the RMSprop optimizer at learning rate
1/10000, the binary cross-entropy loss, and the accuracy metric, and
changes nothing else about the composed model: no layer, parameter or
architecture field is touched, so no training and no parameter update
happens at this stage. -/
theorem compile_binds_contract (m : ComposedModel) :
    (compile m).optimizer = some (Optimizer.rmsprop (1 / 10000)) ∧
    (compile m).loss = some "binary_crossentropy" ∧
    (compile m).metrics = ["accuracy"] ∧
    (compile m).baseLayers = m.baseLayers ∧
    (compile m).headLayers = m.headLayers ∧
    (compile m).arch = m.arch ∧
    (compile m).inputShape = m.inputShape ∧
    (compile m).outputLayerName = m.outputLayerName :=
  ⟨rfl, rfl, rfl, rfl, rfl, rfl, rfl, rfl⟩

/-- Claim C7: get_layer returns a node of the graph bearing the
requested name whenever one exists, fails with a lookup error exactly
when no node bears the name, and a lookup failure propagates as-is to
the whole script, which catches nothing. -/
theorem get_layer_contract (layers : List Layer) (name : String) :
    (∀ l, get_layer layers name = .ok l → l ∈ layers ∧ l.name = name) ∧
    ((∃ l ∈ layers, l.name = name) →
      ∃ l, get_layer layers name = .ok l ∧ l ∈ layers ∧ l.name = name) ∧
    ((∃ e, get_layer layers name = .error e) ↔
      ¬ ∃ l ∈ layers, l.name = name) ∧
    (∀ (base : BaseNetwork) (w1 b1 w2 b2 : Params) (e : String),
      get_layer (freezeAll base.layers) name = .error e →
      setupScript base name w1 b1 w2 b2 = .error e) := by
  refine ⟨fun l h => get_layer_ok_mem layers name l h, ?_,
    get_layer_error_iff layers name,
    fun base w1 b1 w2 b2 e h => setupScript_error_prop base name w1 b1 w2 b2 e h⟩
  intro hex
  cases hg : get_layer layers name with
  | error e =>
      exact absurd hex ((get_layer_error_iff layers name).mp ⟨e, hg⟩)
  | ok l =>
      obtain ⟨h1, h2⟩ := get_layer_ok_mem layers name l hg
      exact ⟨l, rfl, h1, h2⟩

/-- Witness for get_layer_contract: looking up an absent name on the
frozen demo base makes the whole script fail with that lookup error. -/
theorem get_layer_contract_witness :
    get_layer (freezeAll demoBase.layers) "mixed99" =
      .error "lookup error: no such layer mixed99" ∧
    setupScript demoBase "mixed99" [] [] [] [] =
      .error "lookup error: no such layer mixed99" :=
  ⟨by rfl,
   (get_layer_contract (freezeAll demoBase.layers) "mixed99").2.2.2
     demoBase [] [] [] [] "lookup error: no such layer mixed99" (by rfl)⟩

/-- Claim C8: load_weights succeeds exactly when every layer of the
instantiated graph finds an archive entry of its own name with matching
shape; a mismatch yields a load error; and a successful load replaces
each layer's parameters by the archive's values while preserving the
graph structure (layer order, names, flags, shapes). -/
theorem load_weights_contract (layers : List Layer) (archive : Archive) :
    ((∃ ls', load_weights layers archive = .ok ls') ↔
      archiveMatches layers archive) ∧
    (¬ archiveMatches layers archive →
      ∃ e, load_weights layers archive = .error e) ∧
    (∀ ls', load_weights layers archive = .ok ls' →
      List.Forall₂ (loadedFrom archive) layers ls') := by
  refine ⟨⟨fun ⟨ls', h⟩ => load_weights_matches archive layers ls' h,
    load_weights_ok_of_matches archive layers⟩, ?_,
    fun ls' h => load_weights_forall2 archive layers ls' h⟩
  intro hmm
  cases hr : load_weights layers archive with
  | error e => exact ⟨e, rfl⟩
  | ok ls' => exact absurd (load_weights_matches archive layers ls' hr) hmm

/-- The archive used to instantiate load_weights_contract: matching
names and shapes for demoBase, with fresh values. -/
def demoArchive : Archive :=
  [("input_1", []), ("conv1", [5, 6]), ("mixed7", [7]), ("mixed8", [8])]

/-- demoBase after a successful load from demoArchive. -/
def demoLoaded : List Layer :=
  [⟨"input_1", [], true⟩, ⟨"conv1", [5, 6], true⟩,
   ⟨"mixed7", [7], true⟩, ⟨"mixed8", [8], true⟩]

/-- Witness for load_weights_contract: loading demoArchive into
demoBase succeeds and replaces every parameter set by the archive's
values, preserving names and flags. -/
theorem load_weights_contract_witness :
    load_weights demoBase.layers demoArchive = .ok demoLoaded ∧
    List.Forall₂ (loadedFrom demoArchive) demoBase.layers demoLoaded :=
  ⟨by rfl,
   (load_weights_contract demoBase.layers demoArchive).2.2 demoLoaded (by rfl)⟩

/-- Claim C9: with the stochastic regularizer disabled (inference
mode), the composed model's forward pass does not consult the random
keep stream at all, so evaluating it twice on the same input batch —
with whatever randomness the environment supplies each time — yields
identical output: inference is deterministic in the input. -/
theorem inference_deterministic (baseF : List Rat → FeatureMap)
    (sig : Rat → Rat) (hw : HeadWeights) (keep keep' : Nat → Bool)
    (x : List Rat) :
    composedForward baseF sig hw false keep x =
      composedForward baseF sig hw false keep' x := rfl

end TransferLearning
